import Mathlib

/-!
Shallow embedding of the DNS wire codec (a small Rust DNS server:
`src/error.rs`, `src/common.rs`, `src/header.rs`, `src/question.rs`,
`src/answer.rs`, `src/packet.rs`), together with theorems settling the
specification claims about it.

Modelling conventions:
* a Rust byte (`u8`) is a `Nat`; every arithmetic step that can wrap in the
  source carries an explicit `% 256` (resp. `% 65536` for `u16`);
* a Rust `String` is modelled by its UTF-8 byte list (`List Nat`); pushing the
  character `.` appends the byte `46`, `str::len` is the list length, and
  `String::from_utf8_lossy` is embedded as `utf8Lossy` below;
* fallible Rust operations returning `Result<T, ParseError>` become
  `Except ParseError T`; an operation that can additionally panic (unchecked
  indexing `v[i]` or slicing `&v[i..]` out of bounds) is wrapped in `Option`,
  with `none` modelling the panic.
-/

deriving instance DecidableEq for Except

namespace DnsCodec

/-- Embedding of `ParseError` (src/error.rs).  `InvalidLength` carries a
`usize`, `InvalidValue` carries a `u8`. -/
inductive ParseError where
  | InvalidLength (n : Nat)
  | InvalidValue (b : Nat)
deriving DecidableEq

/-- Embedding of `PacketType` (src/header.rs). -/
inductive PacketType where
  | Query
  | Response
deriving DecidableEq

/-- Embedding of `OpCode` (src/header.rs). -/
inductive OpCode where
  | Query
  | InverseQuery
  | ServerStatus
deriving DecidableEq

/-- Embedding of `ResponseCode` (src/header.rs). -/
inductive ResponseCode where
  | NoError
  | FormatError
  | ServFail
  | NxDomain
deriving DecidableEq

/-- Embedding of `DnsType` (src/common.rs); `QuestionType` (src/question.rs)
is a field-for-field duplicate of this enum in the source, so the same
embedding is used for both. -/
inductive DnsType where
  | A
  | Ns
  | Md
  | Mf
  | Cname
  | Soa
  | Mb
  | Mg
  | Mr
  | Null
  | Wks
  | Ptr
  | Hinfo
  | Minfo
  | Mx
  | Txt
deriving DecidableEq

/-- Embedding of `DnsClass` (src/common.rs); `QuestionClass`
(src/question.rs) is a duplicate of this enum in the source. -/
inductive DnsClass where
  | In
  | Cs
  | Ch
  | Hs
deriving DecidableEq

/-- The `repr(u8)` discriminant of `PacketType` (`qr as u8`). -/
def packetTypeCode : PacketType → Nat
  | .Query => 0
  | .Response => 1

/-- The `repr(u8)` discriminant of `OpCode` (`opcode as u8`). -/
def opCodeCode : OpCode → Nat
  | .Query => 0
  | .InverseQuery => 1
  | .ServerStatus => 2

/-- The `repr(u8)` discriminant of `ResponseCode` (`rcode as u8`). -/
def responseCodeCode : ResponseCode → Nat
  | .NoError => 0
  | .FormatError => 1
  | .ServFail => 2
  | .NxDomain => 3

/-- The `repr(u16)` discriminant of `DnsType` (`qtype as u16`). -/
def dnsTypeCode : DnsType → Nat
  | .A => 1
  | .Ns => 2
  | .Md => 3
  | .Mf => 4
  | .Cname => 5
  | .Soa => 6
  | .Mb => 7
  | .Mg => 8
  | .Mr => 9
  | .Null => 10
  | .Wks => 11
  | .Ptr => 12
  | .Hinfo => 13
  | .Minfo => 14
  | .Mx => 15
  | .Txt => 16

/-- The `repr(u16)` discriminant of `DnsClass` (`qclass as u16`). -/
def dnsClassCode : DnsClass → Nat
  | .In => 1
  | .Cs => 2
  | .Ch => 3
  | .Hs => 4

/-- Embedding of `impl TryFrom<u8> for PacketType` (src/header.rs). -/
def packetType_tryFrom (byte : Nat) : Except ParseError PacketType :=
  if byte = 0 then .ok .Query
  else if byte = 1 then .ok .Response
  else .error (.InvalidValue byte)

/-- Embedding of `impl TryFrom<u8> for OpCode` (src/header.rs). -/
def opCode_tryFrom (byte : Nat) : Except ParseError OpCode :=
  if byte = 0 then .ok .Query
  else if byte = 1 then .ok .InverseQuery
  else if byte = 2 then .ok .ServerStatus
  else .error (.InvalidValue byte)

/-- Embedding of `impl TryFrom<u8> for ResponseCode` (src/header.rs). -/
def responseCode_tryFrom (byte : Nat) : Except ParseError ResponseCode :=
  if byte = 0 then .ok .NoError
  else if byte = 1 then .ok .FormatError
  else if byte = 2 then .ok .ServFail
  else if byte = 3 then .ok .NxDomain
  else .error (.InvalidValue byte)

/-- Embedding of `impl TryFrom<u16> for DnsType` (src/common.rs, identical to
`impl TryFrom<u16> for QuestionType` in src/question.rs).  The default arm is
`Err(ParseError::InvalidValue(value as u8))`: the `u16` code is truncated to
its low byte by the `as u8` cast, hence the `% 256`. -/
def dnsType_tryFrom (value : Nat) : Except ParseError DnsType :=
  if value = 1 then .ok .A
  else if value = 2 then .ok .Ns
  else if value = 3 then .ok .Md
  else if value = 4 then .ok .Mf
  else if value = 5 then .ok .Cname
  else if value = 6 then .ok .Soa
  else if value = 7 then .ok .Mb
  else if value = 8 then .ok .Mg
  else if value = 9 then .ok .Mr
  else if value = 10 then .ok .Null
  else if value = 11 then .ok .Wks
  else if value = 12 then .ok .Ptr
  else if value = 13 then .ok .Hinfo
  else if value = 14 then .ok .Minfo
  else if value = 15 then .ok .Mx
  else if value = 16 then .ok .Txt
  else .error (.InvalidValue (value % 256))

/-- Embedding of `impl TryFrom<u16> for DnsClass` (src/common.rs, identical to
`impl TryFrom<u16> for QuestionClass` in src/question.rs).  The default arm
truncates the code with `as u8`. -/
def dnsClass_tryFrom (value : Nat) : Except ParseError DnsClass :=
  if value = 1 then .ok .In
  else if value = 2 then .ok .Cs
  else if value = 3 then .ok .Ch
  else if value = 4 then .ok .Hs
  else .error (.InvalidValue (value % 256))

/-- Worker for `utf8Lossy`, structurally recursive on a fuel argument.  The
entry point supplies the list length as fuel, which always suffices because
every step consumes at least one byte while spending exactly one unit of
fuel; the `0, _ :: _` arm is therefore unreachable from the entry point. -/
def utf8LossyF : Nat → List Nat → List Nat
  | _, [] => []
  | 0, _ :: _ => []
  | fuel + 1, b :: rest =>
    if b < 128 then
      b :: utf8LossyF fuel rest
    else if 194 ≤ b ∧ b ≤ 223 then
      match rest with
      | [] => [239, 191, 189]
      | c1 :: rest1 =>
        if 128 ≤ c1 ∧ c1 ≤ 191 then b :: c1 :: utf8LossyF fuel rest1
        else 239 :: 191 :: 189 :: utf8LossyF fuel rest
    else if 224 ≤ b ∧ b ≤ 239 then
      match rest with
      | [] => [239, 191, 189]
      | c1 :: rest1 =>
        if (if b = 224 then 160 ≤ c1 ∧ c1 ≤ 191
            else if b = 237 then 128 ≤ c1 ∧ c1 ≤ 159
            else 128 ≤ c1 ∧ c1 ≤ 191) then
          match rest1 with
          | [] => [239, 191, 189]
          | c2 :: rest2 =>
            if 128 ≤ c2 ∧ c2 ≤ 191 then b :: c1 :: c2 :: utf8LossyF fuel rest2
            else 239 :: 191 :: 189 :: utf8LossyF fuel rest1
        else 239 :: 191 :: 189 :: utf8LossyF fuel rest
    else if 240 ≤ b ∧ b ≤ 244 then
      match rest with
      | [] => [239, 191, 189]
      | c1 :: rest1 =>
        if (if b = 240 then 144 ≤ c1 ∧ c1 ≤ 191
            else if b = 244 then 128 ≤ c1 ∧ c1 ≤ 143
            else 128 ≤ c1 ∧ c1 ≤ 191) then
          match rest1 with
          | [] => [239, 191, 189]
          | c2 :: rest2 =>
            if 128 ≤ c2 ∧ c2 ≤ 191 then
              match rest2 with
              | [] => [239, 191, 189]
              | c3 :: rest3 =>
                if 128 ≤ c3 ∧ c3 ≤ 191 then b :: c1 :: c2 :: c3 :: utf8LossyF fuel rest3
                else 239 :: 191 :: 189 :: utf8LossyF fuel rest2
            else 239 :: 191 :: 189 :: utf8LossyF fuel rest1
        else 239 :: 191 :: 189 :: utf8LossyF fuel rest
    else
      239 :: 191 :: 189 :: utf8LossyF fuel rest

/-- Embedding of `String::from_utf8_lossy` on a byte list: maximal valid
UTF-8 sequences are copied through, each maximal invalid subpart is replaced
by the three UTF-8 bytes `EF BF BD` of U+FFFD (substitution of maximal
subparts, the policy implemented by Rust's `Utf8Chunks`). -/
def utf8Lossy (l : List Nat) : List Nat :=
  utf8LossyF l.length l

/-- Loop body of `impl TryFrom<&[u8]> for Name` (src/common.rs) and the
identical `impl TryFrom<&[u8]> for QuestionName` (src/question.rs):

    loop {
        let len = value[0] as usize;          // value = [] panics
        if len == 0 { break; }
        if !name.is_empty() { name.push('.'); }
        name.push_str(&String::from_utf8_lossy(&value[1..=len]));
                                              // len > value.len()-1 panics
        value = &value[len + 1..];
    }

`none` models an index/slice panic.  The first argument is fuel; the entry
point `nameFromBytes` supplies `value.length`, which always suffices because
every iteration consumes at least one byte of `value` while spending exactly
one unit of fuel, so the `0, _ :: _` arm is unreachable from the entry
point. -/
def nameLoop : Nat → List Nat → List Nat → Option (List Nat)
  | _, [], _ => none
  | 0, _ :: _, _ => none
  | fuel + 1, len :: rest, name =>
    if len = 0 then some name
    else if len ≤ rest.length then
      nameLoop fuel (rest.drop len)
        ((if name = [] then name else name ++ [46]) ++ utf8Lossy (rest.take len))
    else none

/-- Embedding of `impl TryFrom<&[u8]> for Name` (src/common.rs) and of the
identical `impl TryFrom<&[u8]> for QuestionName` (src/question.rs).  The
source returns `Result<Name, ParseError>` but no path constructs an `Err`, so
the embedding returns the name directly; `none` models a panic. -/
def nameFromBytes (value : List Nat) : Option (List Nat) :=
  if value = [] then some [] else nameLoop value.length value []

/-- Embedding of `str::split('.')` over the UTF-8 bytes of the string: `.` is
the single byte 46, which never occurs inside another UTF-8 character, so
splitting the byte list on 46 agrees with splitting the string on `'.'`.
Like Rust's `split`, it always yields at least one (possibly empty) part. -/
def dotSplit : List Nat → List (List Nat)
  | [] => [[]]
  | b :: rest =>
    if b = 46 then [] :: dotSplit rest
    else
      match dotSplit rest with
      | p :: ps => (b :: p) :: ps
      | [] => [[b]]

/-- The byte output of the `for part in self.0.split('.')` loop of
`Name::to_bytes` (src/common.rs) / `QuestionName::to_bytes`
(src/question.rs): for each part, `part.len() as u8` (hence `% 256`) followed
by the part's bytes. -/
def partsBytes : List (List Nat) → List Nat
  | [] => []
  | p :: ps => ((p.length % 256) :: p) ++ partsBytes ps

/-- Embedding of `Name::to_bytes` (src/common.rs) and of the identical
`QuestionName::to_bytes` (src/question.rs): emit each `.`-separated part as
`(len, bytes)`, then push the terminating zero byte. -/
def nameToBytes (s : List Nat) : List Nat :=
  partsBytes (dotSplit s) ++ [0]

/-- Embedding of `DnsHeader` (src/header.rs).  `id` and the four counts are
`u16` (kept below 65536 by every constructing operation), `z` is the 3-bit
reserved field. -/
structure DnsHeader where
  id : Nat
  qr : PacketType
  opcode : OpCode
  aa : Bool
  tc : Bool
  rd : Bool
  ra : Bool
  z : Nat
  rcode : ResponseCode
  qdcount : Nat
  ancount : Nat
  nscount : Nat
  arcount : Nat
deriving DecidableEq

/-- `bool as u8`. -/
def boolByte (b : Bool) : Nat := if b then 1 else 0

/-- `u16::to_be_bytes`: big-endian high byte then low byte. -/
def u16BeBytes (v : Nat) : List Nat := [v / 256 % 256, v % 256]

/-- Embedding of `DnsHeader::to_bytes` (src/header.rs):

    flags       = (qr << 7) | ((opcode & 0x0F) << 3) | (aa << 2) | (tc << 1) | rd
    rcode_flags = (ra << 7) | ((z & 0x07) << 4) | (rcode & 0x0F)

`u8` shifts wrap, hence the `% 256` after each shift. -/
def dnsHeader_toBytes (h : DnsHeader) : List Nat :=
  u16BeBytes h.id ++
    [packetTypeCode h.qr * 128 % 256 |||
       (opCodeCode h.opcode &&& 15) * 8 % 256 |||
       boolByte h.aa * 4 % 256 ||| boolByte h.tc * 2 % 256 ||| boolByte h.rd,
     boolByte h.ra * 128 % 256 |||
       (h.z &&& 7) * 16 % 256 ||| (responseCodeCode h.rcode &&& 15)] ++
    u16BeBytes h.qdcount ++ u16BeBytes h.ancount ++
    u16BeBytes h.nscount ++ u16BeBytes h.arcount

/-- Embedding of `impl TryFrom<&[u8]> for DnsHeader` (src/header.rs).  The
source performs unchecked indexing `bytes[0]` … `bytes[11]` with no length
check; `none` models the resulting index-out-of-bounds panic.  The nesting
mirrors the evaluation order of the source: `bytes[0..=2]` are read (and may
panic) before the opcode can fail, `bytes[3]` before the response code can
fail, and `bytes[4..=11]` only after both codes were accepted.  On `u8`,
`(b << k) >> j` is `b * 2^k % 256 / 2^j`. -/
def dnsHeader_tryFrom (bytes : List Nat) : Option (Except ParseError DnsHeader) :=
  match bytes with
  | b0 :: b1 :: b2 :: rest =>
    match packetType_tryFrom (b2 / 128) with
    | .error e => some (.error e)
    | .ok qr =>
      match opCode_tryFrom (b2 * 2 % 256 / 16) with
      | .error e => some (.error e)
      | .ok opcode =>
        match rest with
        | b3 :: rest2 =>
          match responseCode_tryFrom (b3 * 16 % 256 / 16) with
          | .error e => some (.error e)
          | .ok rcode =>
            match rest2 with
            | b4 :: b5 :: b6 :: b7 :: b8 :: b9 :: b10 :: b11 :: _ =>
              some (.ok
                { id := b0 * 256 + b1
                  qr := qr
                  opcode := opcode
                  aa := (b2 * 32 % 256 / 128) != 0
                  tc := (b2 * 64 % 256 / 128) != 0
                  rd := (b2 * 128 % 256 / 128) != 0
                  ra := (b3 / 128) != 0
                  z := b3 * 2 % 256 / 32
                  rcode := rcode
                  qdcount := b4 * 256 + b5
                  ancount := b6 * 256 + b7
                  nscount := b8 * 256 + b9
                  arcount := b10 * 256 + b11 })
            | _ => none
        | [] => none
  | _ => none

/-- Embedding of `DnsHeader::flip_qr` (src/header.rs). -/
def dnsHeader_flipQr (h : DnsHeader) : DnsHeader :=
  { h with qr := match h.qr with | .Query => .Response | .Response => .Query }

/-- Embedding of `DnsQuestion` (src/question.rs); `qname` is the decoded
dotted string as bytes. -/
structure DnsQuestion where
  qname : List Nat
  qtype : DnsType
  qclass : DnsClass
deriving DecidableEq

/-- Embedding of `DnsQuestion::try_from` (src/question.rs): decode the name,
re-slice at `qname.0.len() + 2` (panics when that exceeds the buffer), then
read two big-endian `u16` codes.  `value[0]`/`value[1]` are read (and may
panic) before the type code can fail, `value[2]`/`value[3]` only after it was
accepted. -/
def dnsQuestion_tryFrom (value : List Nat) : Option (Except ParseError DnsQuestion) :=
  match nameFromBytes value with
  | none => none
  | some qname =>
    if qname.length + 2 ≤ value.length then
      match value.drop (qname.length + 2) with
      | v0 :: v1 :: rest =>
        match dnsType_tryFrom (v0 * 256 + v1) with
        | .error e => some (.error e)
        | .ok qtype =>
          match rest with
          | v2 :: v3 :: _ =>
            match dnsClass_tryFrom (v2 * 256 + v3) with
            | .error e => some (.error e)
            | .ok qclass => some (.ok { qname := qname, qtype := qtype, qclass := qclass })
          | _ => none
      | _ => none
    else none

/-- Embedding of `DnsQuestion::len` (src/question.rs):
`self.qname.0.len() + 2 + 2`. -/
def DnsQuestion.len (q : DnsQuestion) : Nat :=
  q.qname.length + 2 + 2

/-- Embedding of `DnsQuestion::to_bytes` (src/question.rs): name bytes, then
the type and class codes, each pushed as `(x >> 8) as u8` and `x as u8`. -/
def DnsQuestion.toBytes (q : DnsQuestion) : List Nat :=
  nameToBytes q.qname ++
    [dnsTypeCode q.qtype / 256 % 256, dnsTypeCode q.qtype % 256,
     dnsClassCode q.qclass / 256 % 256, dnsClassCode q.qclass % 256]

/-- Embedding of `RData` (src/answer.rs): the single IPv4 variant carries the
four raw address bytes. -/
inductive RData where
  | A (i0 i1 i2 i3 : Nat)
deriving DecidableEq

/-- The raw resource-data bytes emitted for an `RData` value by
`DnsAnswer::to_bytes` (src/answer.rs). -/
def rdataBytes : RData → List Nat
  | .A i0 i1 i2 i3 => [i0, i1, i2, i3]

/-- Embedding of `DnsAnswer` (src/answer.rs).  `ttl` is the `i32` TTL,
`rdlength` the `u16` resource-data length (a private field in the source,
set only by the constructor). -/
structure DnsAnswer where
  name : List Nat
  qtype : DnsType
  qclass : DnsClass
  ttl : Int
  rdlength : Nat
  rdata : RData
deriving DecidableEq

/-- Embedding of `DnsAnswer::new` (src/answer.rs): `rdlength` is computed
from the resource-data variant (4 for `RData::A`). -/
def DnsAnswer.new (name : List Nat) (qtype : DnsType) (qclass : DnsClass)
    (ttl : Int) (rdata : RData) : DnsAnswer :=
  { name := name
    qtype := qtype
    qclass := qclass
    ttl := ttl
    rdlength := match rdata with | .A _ _ _ _ => 4
    rdata := rdata }

/-- `(x >> shift) as u8` for an `i32` value `x`: the arithmetic right shift is
a flooring division by `2 ^ shift`, and the `as u8` cast keeps the low byte of
the two's-complement representation, i.e. the nonnegative remainder mod 256. -/
def i32ShrByte (x : Int) (shift : Nat) : Nat :=
  ((Int.fdiv x (2 ^ shift)) % 256).toNat

/-- Embedding of `DnsAnswer::to_bytes` (src/answer.rs): name, type, class,
the four TTL bytes, the two `rdlength` bytes, then the raw resource-data. -/
def DnsAnswer.toBytes (a : DnsAnswer) : List Nat :=
  nameToBytes a.name ++
    [dnsTypeCode a.qtype / 256 % 256, dnsTypeCode a.qtype % 256,
     dnsClassCode a.qclass / 256 % 256, dnsClassCode a.qclass % 256,
     i32ShrByte a.ttl 24, i32ShrByte a.ttl 16, i32ShrByte a.ttl 8, i32ShrByte a.ttl 0,
     a.rdlength / 256 % 256, a.rdlength % 256] ++
    rdataBytes a.rdata

/-- Embedding of `DnsPacket` (src/packet.rs). -/
structure DnsPacket where
  header : DnsHeader
  questions : List DnsQuestion
  answers : List DnsAnswer
deriving DecidableEq

/-- Embedding of the question loop of `DnsPacket::try_from` (src/packet.rs):

    for _ in 0..header.qdcount {
        bytes = &bytes[offset..];            // offset > bytes.len() panics
        if bytes.is_empty() { break; }
        let question = DnsQuestion::try_from(bytes)?;
        offset += question.len();
        questions.push(question);
    }

Note that the source re-slices the already-advanced `bytes` by the
accumulated `offset`; the embedding reproduces this exactly. -/
def questionsLoop :
    Nat → List Nat → Nat → List DnsQuestion → Option (Except ParseError (List DnsQuestion))
  | 0, _, _, questions => some (.ok questions)
  | n + 1, bytes, offset, questions =>
    if offset ≤ bytes.length then
      match bytes.drop offset with
      | [] => some (.ok questions)
      | b :: bs =>
        match dnsQuestion_tryFrom (b :: bs) with
        | none => none
        | some (.error e) => some (.error e)
        | some (.ok q) =>
          questionsLoop n (b :: bs) (offset + q.len) (questions ++ [q])
    else none

/-- Embedding of `DnsPacket::try_from` (src/packet.rs): decode the header
(propagating its failure), run the question loop for `header.qdcount`
iterations starting at offset 12, and return the packet with an empty answers
sequence. -/
def dnsPacket_tryFrom (bytes : List Nat) : Option (Except ParseError DnsPacket) :=
  match dnsHeader_tryFrom bytes with
  | none => none
  | some (.error e) => some (.error e)
  | some (.ok header) =>
    match questionsLoop header.qdcount bytes 12 [] with
    | none => none
    | some (.error e) => some (.error e)
    | some (.ok questions) =>
      some (.ok { header := header, questions := questions, answers := [] })

/-- Embedding of `DnsPacket::add_answer` (src/packet.rs): increment the `u16`
`header.ancount` (wrapping at 2^16) and push the answer. -/
def DnsPacket.addAnswer (p : DnsPacket) (answer : DnsAnswer) : DnsPacket :=
  { p with
    header := { p.header with ancount := (p.header.ancount + 1) % 65536 }
    answers := p.answers ++ [answer] }

/-- Embedding of `DnsPacket::to_bytes` (src/packet.rs): header bytes, then
each question's bytes, then each answer's bytes. -/
def DnsPacket.toBytes (p : DnsPacket) : List Nat :=
  dnsHeader_toBytes p.header ++
    (p.questions.map DnsQuestion.toBytes).flatten ++
    (p.answers.map DnsAnswer.toBytes).flatten

/-- The claim C6 quantifies over wire forms made only of literal
length-prefixed labels followed by a zero terminator; `literalWire labels` is
that wire form for the given label list. -/
def literalWire : List (List Nat) → List Nat
  | [] => [0]
  | l :: ls => (l.length :: l) ++ literalWire ls

/-- The byte form of joining labels with `.` (byte 46): separator-prefixed
tail of a dotted name. -/
def dotJoin : List (List Nat) → List Nat
  | [] => []
  | l :: ls => (46 :: l) ++ dotJoin ls

/-- Accumulator form of the name-decoding loop's string building: starting
from `acc`, append each label, preceded by a dot whenever the accumulator is
nonempty. -/
def dotAcc (acc : List Nat) : List (List Nat) → List Nat
  | [] => acc
  | l :: ls => dotAcc ((if acc = [] then acc else acc ++ [46]) ++ l) ls

/-- A 28-byte message: header with `qdcount = 2` followed by two well-formed
8-byte questions (name `ab`, type A, class IN) packed back to back. -/
def cBuf1 : List Nat :=
  [0, 1, 0, 0, 0, 2, 0, 0, 0, 0, 0, 0,
   2, 97, 98, 0, 0, 1, 0, 1,
   2, 97, 98, 0, 0, 1, 0, 1]

/-- The header declared by `cBuf1`. -/
def cHeaderQd2 : DnsHeader :=
  { id := 1, qr := .Query, opcode := .Query, aa := false, tc := false,
    rd := false, ra := false, z := 0, rcode := .NoError,
    qdcount := 2, ancount := 0, nscount := 0, arcount := 0 }

/-- The question `ab IN A`, as encoded twice inside `cBuf1`. -/
def cQuestionAb : DnsQuestion :=
  { qname := [97, 98], qtype := .A, qclass := .In }

/-- A question whose decoded name is `a.co`. -/
def cQuestionAco : DnsQuestion :=
  { qname := [97, 46, 99, 111], qtype := .A, qclass := .In }

/-- An answer built through the constructor: name `x`, type A, class IN,
TTL 60, address 8.8.8.8. -/
def cAnswer0 : DnsAnswer :=
  DnsAnswer.new [120] .A .In 60 (.A 8 8 8 8)

/-- A 12-byte message whose header declares `qdcount = 0` and `ancount = 1`. -/
def cBuf8 : List Nat := [0, 9, 0, 0, 0, 0, 0, 1, 0, 0, 0, 0]

/-- The header declared by `cBuf8`. -/
def cHeader8 : DnsHeader :=
  { id := 9, qr := .Query, opcode := .Query, aa := false, tc := false,
    rd := false, ra := false, z := 0, rcode := .NoError,
    qdcount := 0, ancount := 1, nscount := 0, arcount := 0 }

/-- The packet produced by decoding `cBuf8`. -/
def cPacket8 : DnsPacket :=
  { header := cHeader8, questions := [], answers := [] }

/-- A packet with `ancount = 0` and no answers, as a starting point for
repeated `add_answer` calls. -/
def cPacket0 : DnsPacket :=
  { header := { id := 0, qr := .Query, opcode := .Query, aa := false, tc := false,
                rd := false, ra := false, z := 0, rcode := .NoError,
                qdcount := 0, ancount := 0, nscount := 0, arcount := 0 },
    questions := [], answers := [] }

/-- A 12-byte message whose header declares `qdcount = 0` and `ancount = 2`. -/
def cBuf10 : List Nat := [0, 7, 0, 0, 0, 0, 0, 2, 0, 0, 0, 0]

/-- The packet produced by decoding `cBuf10`. -/
def cPacket10 : DnsPacket :=
  { header := { id := 7, qr := .Query, opcode := .Query, aa := false, tc := false,
                rd := false, ra := false, z := 0, rcode := .NoError,
                qdcount := 0, ancount := 2, nscount := 0, arcount := 0 },
    questions := [], answers := [] }

/-- The label list of `example.com`. -/
def exLabels : List (List Nat) :=
  [[101, 120, 97, 109, 112, 108, 101], [99, 111, 109]]

theorem dotSplit_shape (s : List Nat) : ∃ p ps, dotSplit s = p :: ps := by
  cases s with
  | nil => exact ⟨[], [], rfl⟩
  | cons b rest =>
    by_cases hb : b = 46
    · exact ⟨[], dotSplit rest, by simp [dotSplit, hb]⟩
    · rcases hds : dotSplit rest with _ | ⟨p, ps⟩
      · exact ⟨[b], [], by simp [dotSplit, hb, hds]⟩
      · exact ⟨b :: p, ps, by simp [dotSplit, hb, hds]⟩

theorem dotSplit_no_dot {l : List Nat} (h : 46 ∉ l) : dotSplit l = [l] := by
  induction l with
  | nil => rfl
  | cons b rest ih =>
    have hb : b ≠ 46 := fun hb => h (by simp [hb])
    have hr := ih (fun hm => h (by simp [hm]))
    simp [dotSplit, hb, hr]

theorem dotSplit_sep {l : List Nat} (h : 46 ∉ l) (r : List Nat) :
    dotSplit (l ++ 46 :: r) = l :: dotSplit r := by
  induction l with
  | nil => simp [dotSplit]
  | cons b rest ih =>
    have hb : b ≠ 46 := fun hb => h (by simp [hb])
    have hr := ih (fun hm => h (by simp [hm]))
    simp [dotSplit, hb, hr]

theorem dotSplit_join {l : List Nat} (hl : 46 ∉ l) {ls : List (List Nat)}
    (hls : ∀ x ∈ ls, 46 ∉ x) : dotSplit (l ++ dotJoin ls) = l :: ls := by
  induction ls generalizing l with
  | nil => simpa [dotJoin] using dotSplit_no_dot hl
  | cons l2 ls2 ih =>
    have step : l ++ dotJoin (l2 :: ls2) = l ++ 46 :: (l2 ++ dotJoin ls2) := by
      simp [dotJoin]
    rw [step, dotSplit_sep hl, ih (hls l2 (by simp)) (fun x hx => hls x (by simp [hx]))]

theorem partsBytes_literal {ls : List (List Nat)} (h : ∀ x ∈ ls, x.length ≤ 255) :
    partsBytes ls ++ [0] = literalWire ls := by
  induction ls with
  | nil => rfl
  | cons l ls2 ih =>
    have hlen : l.length % 256 = l.length :=
      Nat.mod_eq_of_lt (Nat.lt_of_le_of_lt (h l (by simp)) (by omega))
    have ihh := ih (fun x hx => h x (by simp [hx]))
    simp [partsBytes, literalWire, hlen, ihh]

theorem partsBytes_dotSplit_length (s : List Nat) :
    (partsBytes (dotSplit s)).length = s.length + 1 := by
  induction s with
  | nil => rfl
  | cons b rest ih =>
    by_cases hb : b = 46
    · simp [dotSplit, hb, partsBytes]
      simpa [partsBytes] using ih
    · obtain ⟨p, ps, hds⟩ := dotSplit_shape rest
      rw [hds, partsBytes] at ih
      simp only [dotSplit, hb, if_false, hds]
      simp only [partsBytes, List.length_append, List.length_cons] at ih ⊢
      omega

theorem nameToBytes_length (s : List Nat) : (nameToBytes s).length = s.length + 2 := by
  simp [nameToBytes, partsBytes_dotSplit_length s]

theorem dotAcc_append {acc : List Nat} (hacc : acc ≠ []) (ls : List (List Nat)) :
    dotAcc acc ls = acc ++ dotJoin ls := by
  induction ls generalizing acc with
  | nil => simp [dotAcc, dotJoin]
  | cons l ls2 ih =>
    have h2 : (acc ++ [46]) ++ l ≠ [] := by simp
    simp only [dotAcc, if_neg hacc, dotJoin]
    rw [ih h2]
    simp

theorem nameLoop_literal (labels : List (List Nat)) :
    ∀ (acc : List Nat) (fuel : Nat),
      (∀ l ∈ labels, 1 ≤ l.length ∧ l.length ≤ 255 ∧ 46 ∉ l ∧ utf8Lossy l = l) →
      (literalWire labels).length ≤ fuel →
      nameLoop fuel (literalWire labels) acc = some (dotAcc acc labels) := by
  induction labels with
  | nil =>
    intro acc fuel _ hfuel
    match fuel, hfuel with
    | f + 1, _ => rfl
  | cons l ls ih =>
    intro acc fuel hcond hfuel
    have hl := hcond l (by simp)
    have hwire : literalWire (l :: ls) = l.length :: (l ++ literalWire ls) := by
      simp [literalWire]
    rw [hwire] at hfuel ⊢
    have hlen : (l.length :: (l ++ literalWire ls)).length
        = 1 + l.length + (literalWire ls).length := by simp; omega
    match fuel, hfuel with
    | f + 1, hfuel =>
      show nameLoop (f + 1) _ _ = _
      rw [nameLoop]
      rw [if_neg (by omega), if_pos (by simp)]
      rw [List.take_left, List.drop_left]
      rw [hl.2.2.2]
      rw [ih _ f (fun x hx => hcond x (by simp [hx])) (by rw [hlen] at hfuel; omega)]
      simp [dotAcc]

set_option maxRecDepth 100000 in
theorem byte2_roundtrip : ∀ b < 256, b * 2 % 256 / 16 ≤ 2 →
    (b / 128) * 128 % 256 ||| (b * 2 % 256 / 16 &&& 15) * 8 % 256 |||
        boolByte ((b * 32 % 256 / 128) != 0) * 4 % 256 |||
        boolByte ((b * 64 % 256 / 128) != 0) * 2 % 256 |||
        boolByte ((b * 128 % 256 / 128) != 0) = b := by
  decide

set_option maxRecDepth 100000 in
theorem byte3_roundtrip : ∀ b < 256, b * 16 % 256 / 16 ≤ 3 →
    boolByte ((b / 128) != 0) * 128 % 256 |||
        (b * 2 % 256 / 32 &&& 7) * 16 % 256 ||| (b * 16 % 256 / 16 &&& 15) = b := by
  decide

theorem packetType_decode_code (v : Nat) (hv : v ≤ 1) :
    ∃ t, packetType_tryFrom v = .ok t ∧ packetTypeCode t = v := by
  interval_cases v
  · exact ⟨.Query, rfl, rfl⟩
  · exact ⟨.Response, rfl, rfl⟩

theorem opCode_decode_code (v : Nat) (hv : v ≤ 2) :
    ∃ t, opCode_tryFrom v = .ok t ∧ opCodeCode t = v := by
  interval_cases v
  · exact ⟨.Query, rfl, rfl⟩
  · exact ⟨.InverseQuery, rfl, rfl⟩
  · exact ⟨.ServerStatus, rfl, rfl⟩

theorem responseCode_decode_code (v : Nat) (hv : v ≤ 3) :
    ∃ t, responseCode_tryFrom v = .ok t ∧ responseCodeCode t = v := by
  interval_cases v
  · exact ⟨.NoError, rfl, rfl⟩
  · exact ⟨.FormatError, rfl, rfl⟩
  · exact ⟨.ServFail, rfl, rfl⟩
  · exact ⟨.NxDomain, rfl, rfl⟩

theorem addAnswerIter_length (a : DnsAnswer) (n : Nat) :
    ∀ p : DnsPacket,
      ((fun q => DnsPacket.addAnswer q a)^[n] p).answers.length = p.answers.length + n := by
  induction n with
  | zero => intro p; simp
  | succ m ih =>
    intro p
    rw [Function.iterate_succ_apply, ih]
    simp [DnsPacket.addAnswer]
    omega

theorem addAnswerIter_ancount (a : DnsAnswer) (n : Nat) :
    ∀ p : DnsPacket, p.header.ancount < 65536 →
      ((fun q => DnsPacket.addAnswer q a)^[n] p).header.ancount
        = (p.header.ancount + n) % 65536 := by
  induction n with
  | zero => intro p hp; simpa using (Nat.mod_eq_of_lt hp).symm
  | succ m ih =>
    intro p hp
    rw [Function.iterate_succ_apply, ih _ (by simp [DnsPacket.addAnswer]; omega)]
    simp only [DnsPacket.addAnswer]
    rw [Nat.mod_add_mod]
    congr 1
    omega

/-- Claim C1 (code bug): on the 28-byte message `cBuf1`, whose header declares
`qdcount = 2` and which contains two well-formed questions back to back (each
decodable in isolation, at offsets 12 and 20), `DnsPacket::try_from` does not
return the two questions: the loop re-slices the already-advanced buffer by
the accumulated offset (and `DnsQuestion::len` under-reports the wire length),
so the second iteration slices out of range and the decode panics (`none`). -/
theorem c1_cursor_bug :
    dnsHeader_tryFrom cBuf1 = some (.ok cHeaderQd2) ∧
    dnsQuestion_tryFrom (cBuf1.drop 12) = some (.ok cQuestionAb) ∧
    dnsQuestion_tryFrom (cBuf1.drop 20) = some (.ok cQuestionAb) ∧
    dnsPacket_tryFrom cBuf1 = none := by
  decide

/-- Claim C2 (code bug): decode operations panic on short inputs instead of
returning a typed error.  A 5-byte buffer makes `DnsHeader::try_from` index
out of bounds, and a question whose buffer holds fewer than 4 bytes after the
name makes `DnsQuestion::try_from` index out of bounds; both are modelled by
`none`.  `ParseError::InvalidLength` is never constructed anywhere in the
source. -/
theorem c2_short_input_panics :
    dnsHeader_tryFrom [0, 0, 0, 0, 0] = none ∧
    dnsQuestion_tryFrom [0, 0, 1] = none := by
  decide

/-- Claim C3: for every 12-byte buffer whose packed sub-fields are within
their legal ranges (opcode, as extracted from byte 2, at most 2; response
code, as extracted from byte 3, at most 3; the 1-bit packet type is always in
range), decoding the header succeeds and re-encoding reproduces the original
12 bytes; and every encoded header is exactly 12 bytes. -/
theorem c3_header_roundtrip
    (b0 b1 b2 b3 b4 b5 b6 b7 b8 b9 b10 b11 : Nat)
    (hlt : ∀ b ∈ [b0, b1, b2, b3, b4, b5, b6, b7, b8, b9, b10, b11], b < 256)
    (hop : b2 * 2 % 256 / 16 ≤ 2)
    (hrc : b3 * 16 % 256 / 16 ≤ 3) :
    (∀ h : DnsHeader, (dnsHeader_toBytes h).length = 12) ∧
    ∃ h : DnsHeader,
      dnsHeader_tryFrom [b0, b1, b2, b3, b4, b5, b6, b7, b8, b9, b10, b11] =
          some (.ok h) ∧
        dnsHeader_toBytes h = [b0, b1, b2, b3, b4, b5, b6, b7, b8, b9, b10, b11] := by
  constructor
  · intro h; simp [dnsHeader_toBytes, u16BeBytes]
  · have h0 : b0 < 256 := hlt b0 (by simp)
    have h1 : b1 < 256 := hlt b1 (by simp)
    have h2 : b2 < 256 := hlt b2 (by simp)
    have h3 : b3 < 256 := hlt b3 (by simp)
    have h4 : b4 < 256 := hlt b4 (by simp)
    have h5 : b5 < 256 := hlt b5 (by simp)
    have h6 : b6 < 256 := hlt b6 (by simp)
    have h7 : b7 < 256 := hlt b7 (by simp)
    have h8 : b8 < 256 := hlt b8 (by simp)
    have h9 : b9 < 256 := hlt b9 (by simp)
    have h10 : b10 < 256 := hlt b10 (by simp)
    have h11 : b11 < 256 := hlt b11 (by simp)
    obtain ⟨qr, hqr, hqrc⟩ := packetType_decode_code (b2 / 128) (by omega)
    obtain ⟨opc, hop1, hopc⟩ := opCode_decode_code (b2 * 2 % 256 / 16) hop
    obtain ⟨rc, hrc1, hrcc⟩ := responseCode_decode_code (b3 * 16 % 256 / 16) hrc
    refine ⟨{ id := b0 * 256 + b1, qr := qr, opcode := opc,
              aa := (b2 * 32 % 256 / 128) != 0, tc := (b2 * 64 % 256 / 128) != 0,
              rd := (b2 * 128 % 256 / 128) != 0, ra := (b3 / 128) != 0,
              z := b3 * 2 % 256 / 32, rcode := rc,
              qdcount := b4 * 256 + b5, ancount := b6 * 256 + b7,
              nscount := b8 * 256 + b9, arcount := b10 * 256 + b11 }, ?_, ?_⟩
    · simp only [dnsHeader_tryFrom, hqr, hop1, hrc1]
    · dsimp only [dnsHeader_toBytes, u16BeBytes]
      rw [hqrc, hopc, hrcc]
      rw [byte2_roundtrip b2 h2 hop, byte3_roundtrip b3 h3 hrc]
      simp only [List.cons_append, List.nil_append, List.cons.injEq, true_and, and_true]
      omega

/-- Witness for C3 at the concrete query header
`12 34 01 00 00 01 00 00 00 00 00 00`. -/
theorem c3_header_roundtrip_witness :
    (∀ b ∈ [0x12, 0x34, 1, 0, 0, 1, 0, 0, 0, 0, 0, 0], b < 256) ∧
    (1 * 2 % 256 / 16 ≤ 2) ∧ (0 * 16 % 256 / 16 ≤ 3) ∧
    ((∀ h : DnsHeader, (dnsHeader_toBytes h).length = 12) ∧
      ∃ h : DnsHeader,
        dnsHeader_tryFrom [0x12, 0x34, 1, 0, 0, 1, 0, 0, 0, 0, 0, 0] = some (.ok h) ∧
          dnsHeader_toBytes h = [0x12, 0x34, 1, 0, 0, 1, 0, 0, 0, 0, 0, 0]) :=
  ⟨by decide, by decide, by decide,
    c3_header_roundtrip 0x12 0x34 1 0 0 1 0 0 0 0 0 0 (by decide) (by decide) (by decide)⟩

/-- Claim C4 (code bug): `DnsQuestion::len` does not equal the byte length of
`DnsQuestion::to_bytes`.  For the question with name `a.co` the reported
length is 8 while the encoding is 10 bytes; in general the encoding is always
exactly 2 bytes longer than the reported length (the name's length byte and
terminator are dropped by `len`). -/
theorem c4_len_mismatch :
    cQuestionAco.len = 8 ∧ cQuestionAco.toBytes.length = 10 ∧
    ∀ q : DnsQuestion, q.toBytes.length = q.len + 2 := by
  refine ⟨by decide, by decide, ?_⟩
  intro q
  simp [DnsQuestion.toBytes, DnsQuestion.len, nameToBytes_length q.qname]

/-- Claim C5 counterexample: encoding the empty-string name does not produce
a single zero byte; it produces two zero bytes. -/
theorem c5_counterexample :
    nameToBytes [] = [0, 0] ∧ nameToBytes [] ≠ [0] := by
  decide

/-- Claim C5 (amended): an empty wire name — a zero length byte at offset 0,
and likewise an empty input slice — decodes to the empty string, and encoding
the empty-string name produces the two bytes `00 00` (an empty label length
plus the terminator). -/
theorem c5_empty_name :
    nameFromBytes [0] = some [] ∧ nameFromBytes [] = some [] ∧
    nameToBytes [] = [0, 0] := by
  decide

/-- Claim C6 counterexample: the wire form `01 2E 00` — a single literal
label of length 1 whose byte is `.` — decodes to the string `.` whose
re-encoding is `00 00 00`, not the original bytes. -/
theorem c6_counterexample :
    nameFromBytes [1, 46, 0] = some [46] ∧ nameToBytes [46] = [0, 0, 0] ∧
    nameToBytes [46] ≠ [1, 46, 0] := by
  decide

/-- Claim C6 (amended): for every wire form consisting of at least one
literal length-prefixed label followed by a zero terminator, where each label
has length 1–255, contains no `.` byte (0x2E), and is left unchanged by lossy
UTF-8 decoding, decoding the name and re-encoding it reproduces the original
bytes exactly. -/
theorem c6_name_roundtrip (labels : List (List Nat)) (hne : labels ≠ [])
    (hlab : ∀ l ∈ labels, 1 ≤ l.length ∧ l.length ≤ 255 ∧ 46 ∉ l ∧ utf8Lossy l = l) :
    ∃ s, nameFromBytes (literalWire labels) = some s ∧
      nameToBytes s = literalWire labels := by
  obtain ⟨l, ls, rfl⟩ := List.exists_cons_of_ne_nil hne
  have hl := hlab l (by simp)
  have hlne : l ≠ [] := by
    intro h
    rw [h] at hl
    simpa using hl.1
  refine ⟨l ++ dotJoin ls, ?_, ?_⟩
  · unfold nameFromBytes
    rw [if_neg (by simp [literalWire])]
    rw [nameLoop_literal (l :: ls) [] _ hlab (le_refl _)]
    have hstep : dotAcc ([] : List Nat) (l :: ls) = dotAcc l ls := by
      simp [dotAcc]
    rw [hstep, dotAcc_append hlne ls]
  · unfold nameToBytes
    rw [dotSplit_join hl.2.2.1 (fun x hx => (hlab x (by simp [hx])).2.2.1)]
    exact partsBytes_literal (fun x hx => (hlab x hx).2.1)

/-- Witness for C6 at the label list of `example.com`: the wire form is the
13 bytes `07 65 78 61 6D 70 6C 65 03 63 6F 6D 00` and they round-trip. -/
theorem c6_name_roundtrip_witness :
    literalWire exLabels = [7, 101, 120, 97, 109, 112, 108, 101, 3, 99, 111, 109, 0] ∧
    exLabels ≠ [] ∧
    (∀ l ∈ exLabels, 1 ≤ l.length ∧ l.length ≤ 255 ∧ 46 ∉ l ∧ utf8Lossy l = l) ∧
    ∃ s, nameFromBytes (literalWire exLabels) = some s ∧
      nameToBytes s = literalWire exLabels :=
  ⟨by decide, by decide, by decide, c6_name_roundtrip exLabels (by decide) (by decide)⟩

/-- Claim C7 counterexample: for the out-of-range 16-bit code 300, the error
does not carry the offending value 300; it carries its low byte 44. -/
theorem c7_counterexample :
    dnsType_tryFrom 300 = .error (.InvalidValue 44) ∧
    ParseError.InvalidValue 44 ≠ ParseError.InvalidValue 300 := by
  decide

/-- Claim C7 (amended): for every code in the closed set the conversion
succeeds with the variant whose code equals the input (so variant → code is a
total left inverse), and for every code outside the closed set (0, or ≥ 17
for record types, resp. 0 or ≥ 5 for record classes) it fails with an
"unrecognized value" error carrying the offending value truncated to its low
8 bits (`value as u8`). -/
theorem c7_enum_codes :
    (∀ t : DnsType, dnsType_tryFrom (dnsTypeCode t) = .ok t) ∧
    (∀ v : Nat, v = 0 ∨ 17 ≤ v →
      dnsType_tryFrom v = .error (.InvalidValue (v % 256))) ∧
    (∀ c : DnsClass, dnsClass_tryFrom (dnsClassCode c) = .ok c) ∧
    (∀ v : Nat, v = 0 ∨ 5 ≤ v →
      dnsClass_tryFrom v = .error (.InvalidValue (v % 256))) := by
  refine ⟨fun t => by cases t <;> rfl, fun v hv => ?_, fun c => by cases c <;> rfl,
    fun v hv => ?_⟩
  · unfold dnsType_tryFrom
    repeat rw [if_neg (by omega)]
  · unfold dnsClass_tryFrom
    repeat rw [if_neg (by omega)]

/-- Witness for C7 at the in-range code 16, the out-of-range type code 300,
and the out-of-range class code 999. -/
theorem c7_enum_codes_witness :
    (dnsType_tryFrom (dnsTypeCode .Txt) = .ok .Txt) ∧
    ((300 : Nat) = 0 ∨ 17 ≤ (300 : Nat)) ∧
    dnsType_tryFrom 300 = .error (.InvalidValue (300 % 256)) ∧
    ((999 : Nat) = 0 ∨ 5 ≤ (999 : Nat)) ∧
    dnsClass_tryFrom 999 = .error (.InvalidValue (999 % 256)) :=
  ⟨c7_enum_codes.1 .Txt, by omega, c7_enum_codes.2.1 300 (by omega), by omega,
    c7_enum_codes.2.2.2 999 (by omega)⟩

/-- Claim C8 counterexample: `cBuf8` decodes to a message whose header
already carries `ancount = 1` from the wire while its answers sequence is
empty; calling `add_answer` once (n = 1) then yields `ancount = 2 ≠ 1 = n`,
so n calls on a message do not in general result in `ancount == n`. -/
theorem c8_counterexample :
    dnsPacket_tryFrom cBuf8 = some (.ok cPacket8) ∧
    (cPacket8.addAnswer cAnswer0).header.ancount = 2 ∧
    (cPacket8.addAnswer cAnswer0).answers.length = 1 ∧
    (cPacket8.addAnswer cAnswer0).header.ancount ≠ 1 := by
  decide

/-- Claim C8 (amended): starting from a message whose `ancount` is a valid
`u16`, calling `add_answer` n times appends exactly n answers and leaves
`ancount = (initial + n) mod 2^16`; `flip_qr` never changes `ancount`; and
whenever the message starts with `ancount` equal to its answer count and no
16-bit wraparound occurs, the n calls keep `ancount` equal to the answer
count (in particular, from `ancount = 0`, n < 2^16 calls give
`ancount = n = answers.len()`). -/
theorem c8_add_answer (p : DnsPacket) (a : DnsAnswer) (n : Nat)
    (ha : p.header.ancount < 65536) :
    ((fun q => DnsPacket.addAnswer q a)^[n] p).answers.length = p.answers.length + n ∧
    ((fun q => DnsPacket.addAnswer q a)^[n] p).header.ancount
      = (p.header.ancount + n) % 65536 ∧
    (∀ h : DnsHeader, (dnsHeader_flipQr h).ancount = h.ancount) ∧
    (p.header.ancount = p.answers.length → p.answers.length + n < 65536 →
      ((fun q => DnsPacket.addAnswer q a)^[n] p).header.ancount
        = ((fun q => DnsPacket.addAnswer q a)^[n] p).answers.length) := by
  refine ⟨addAnswerIter_length a n p, addAnswerIter_ancount a n p ha, fun h => rfl,
    fun h1 h2 => ?_⟩
  rw [addAnswerIter_length a n p, addAnswerIter_ancount a n p ha, h1]
  exact Nat.mod_eq_of_lt (by omega)

/-- Witness for C8: three `add_answer` calls on the fresh message `cPacket0`
(`ancount = 0`, no answers) keep `ancount` equal to the answer count. -/
theorem c8_add_answer_witness :
    cPacket0.header.ancount < 65536 ∧
    cPacket0.header.ancount = cPacket0.answers.length ∧
    cPacket0.answers.length + 3 < 65536 ∧
    ((fun q => DnsPacket.addAnswer q cAnswer0)^[3] cPacket0).header.ancount
      = ((fun q => DnsPacket.addAnswer q cAnswer0)^[3] cPacket0).answers.length :=
  ⟨by decide, by decide, by decide,
    (c8_add_answer cPacket0 cAnswer0 3 (by decide)).2.2.2 (by decide) (by decide)⟩

/-- Claim C9: every answer built through `DnsAnswer::new` has its `rdlength`
equal to the byte length of its resource-data (4 for the IPv4 variant), and
its encoding consists of the name, type, class and TTL bytes, then the two
big-endian `rdlength` bytes whose value is the length of the resource-data
bytes that follow them. -/
theorem c9_rdlength_invariant (name : List Nat) (qtype : DnsType) (qclass : DnsClass)
    (ttl : Int) (rdata : RData) :
    (DnsAnswer.new name qtype qclass ttl rdata).rdlength = (rdataBytes rdata).length ∧
    (DnsAnswer.new name qtype qclass ttl rdata).toBytes =
      (nameToBytes name ++
        [dnsTypeCode qtype / 256 % 256, dnsTypeCode qtype % 256,
         dnsClassCode qclass / 256 % 256, dnsClassCode qclass % 256,
         i32ShrByte ttl 24, i32ShrByte ttl 16, i32ShrByte ttl 8, i32ShrByte ttl 0] ++
        [(rdataBytes rdata).length / 256 % 256, (rdataBytes rdata).length % 256]) ++
        rdataBytes rdata := by
  cases rdata with
  | A i0 i1 i2 i3 =>
    refine ⟨rfl, ?_⟩
    simp [DnsAnswer.new, DnsAnswer.toBytes, rdataBytes]

/-- Claim C10: every accepted decode returns a message whose answers
sequence is empty while the header is exactly the one decoded from the wire
(so `ancount` retains its wire value); hence whenever the wire declared
`ancount > 0`, the decoded message has `ancount ≠ answers.len()`. -/
theorem c10_decode_keeps_ancount (bytes : List Nat) (p : DnsPacket)
    (h : dnsPacket_tryFrom bytes = some (.ok p)) :
    p.answers = [] ∧ dnsHeader_tryFrom bytes = some (.ok p.header) ∧
    (0 < p.header.ancount → p.header.ancount ≠ p.answers.length) := by
  unfold dnsPacket_tryFrom at h
  split at h
  · exact absurd h (by simp)
  · exact absurd h (by simp)
  · rename_i hd hH
    split at h
    · exact absurd h (by simp)
    · exact absurd h (by simp)
    · rename_i qs hQ
      simp only [Option.some.injEq, Except.ok.injEq] at h
      subst h
      refine ⟨rfl, hH, ?_⟩
      intro hpos
      have hpos2 : 0 < hd.ancount := hpos
      show hd.ancount ≠ 0
      omega

/-- Witness for C10 at `cBuf10`, whose header declares `ancount = 2`. -/
theorem c10_decode_keeps_ancount_witness :
    dnsPacket_tryFrom cBuf10 = some (.ok cPacket10) ∧
    (cPacket10.answers = [] ∧ dnsHeader_tryFrom cBuf10 = some (.ok cPacket10.header) ∧
      (0 < cPacket10.header.ancount →
        cPacket10.header.ancount ≠ cPacket10.answers.length)) :=
  ⟨by decide, c10_decode_keeps_ancount cBuf10 cPacket10 (by decide)⟩

end DnsCodec
